import Mathlib

/-!
Verification development for the prompt-document core of the `poet`
repository: the tag-tree interpreter (`eval_tag_stack_node`), the component
registry, the prompt-document controller (`respond_to`, `get_mcp_prompt`),
the argument schema (`Argument`), and the controller-collection builder
(`build_prompt_controller_collection`).

The Rust code is shallowly embedded: fallible code becomes `Except String`,
the dynamically typed rhai `Dynamic` value becomes the closed tagged union
`Dyn`, rhai maps and `DashMap`s become association lists, and the external
expression evaluator / component dispatch (`EvalContext::call_fn`) become
function-valued fields of an environment record.  Parts of the pipeline
that belong to this repository but are not part of the given corpus
(`eval_prompt_document_mdast`, `PromptDocumentFrontMatter::map_arguments`,
`eval_tag`, `DocumentErrorCollection`'s rendering) are modelled from the
specification and marked as such in their doc comments.
-/

/-- Reference to an already-parsed expression.  Expression parsing is an
external capability; the interpreter only ever passes the handle to the
evaluator, so the handle is modelled as the expression's source text. -/
abbrev ExpressionReference := String

/-- Closed tagged union for the dynamically typed values crossing the
evaluator boundary (rhai `Dynamic`): string, bool, integer, sequence, map. -/
inductive Dyn where
  | str : String → Dyn
  | bool : Bool → Dyn
  | int : Int → Dyn
  | array : List Dyn → Dyn
  | map : List (String × Dyn) → Dyn

mutual

/-- String form of a dynamic value (rhai `Dynamic::to_string`).  Scalars
render bare; collections render with brackets and comma separators (the
evaluator's default collection formatting, which body-expression
flattening must *not* use). -/
def Dyn.toStr : Dyn → String
  | .str s => s
  | .bool b => if b then "true" else "false"
  | .int n => n.repr
  | .array xs => "[" ++ dynListToStr xs ++ "]"
  | .map ps => "#\x7b" ++ dynPairsToStr ps ++ "\x7d"

/-- Comma-separated rendering of a sequence's elements. -/
def dynListToStr : List Dyn → String
  | [] => ""
  | [x] => x.toStr
  | x :: y :: rest => x.toStr ++ ", " ++ dynListToStr (y :: rest)

/-- Comma-separated rendering of a map's entries. -/
def dynPairsToStr : List (String × Dyn) → String
  | [] => ""
  | [(k, v)] => k ++ ": " ++ v.toStr
  | (k, v) :: p :: rest => k ++ ": " ++ v.toStr ++ ", " ++ dynPairsToStr (p :: rest)

end

/-- Association-list lookup, used for scopes, registries and maps. -/
def alistGet {α : Type} (l : List (String × α)) (k : String) : Option α :=
  match l.find? (fun p => p.1 = k) with
  | some p => some p.2
  | none => none

/-- Map insertion with overwrite semantics (rhai `Map::insert` /
`BTreeMap::insert`): an existing key's value is replaced, a new key is
appended. -/
def mapInsert (m : List (String × Dyn)) (k : String) (v : Dyn) : List (String × Dyn) :=
  if m.any (fun p => p.1 = k) then
    m.map (fun p => if p.1 = k then (k, v) else p)
  else
    m ++ [(k, v)]

/-- `AttributeValue` from `rhai_components/attribute_value.rs` (shape fixed
by its uses in `eval_tag_stack_node.rs` and the spec data model). -/
inductive AttributeValue where
  | text : String → AttributeValue
  | expression : ExpressionReference → AttributeValue
deriving DecidableEq

/-- A tag attribute: a name and an optional value (`None` is the
boolean-shorthand form). -/
structure Attribute where
  name : String
  value : Option AttributeValue
deriving DecidableEq

/-- Opening tag header: name, component flag, ordered attributes. -/
structure TagHeader where
  name : String
  is_component : Bool
  attributes : List Attribute
deriving DecidableEq

/-- `TagStackNode` from `rhai_components/tag_stack_node.rs` (shape fixed by
`eval_tag_stack_node.rs` and the spec data model): literal text, a body
expression, or a tag with optional opening header, children, and a
closed-ness flag. -/
inductive TagStackNode where
  | text : String → TagStackNode
  | bodyExpression : ExpressionReference → TagStackNode
  | tag : Option TagHeader → List TagStackNode → Bool → TagStackNode

/-- `ComponentRegistry` (`rhai_components/component_registry.rs`): a map
from component name to the registered global function name. -/
def ComponentRegistry := List (String × String)

/-- `ComponentRegistry::get_global_fn_name`: look the component up, or fail
with an error naming the component. -/
def ComponentRegistry.get_global_fn_name (reg : ComponentRegistry)
    (component_name : String) : Except String String :=
  match alistGet reg component_name with
  | some fn => .ok fn
  | none => .error ("Component " ++ component_name ++ " not found")

/-- `ComponentRegistry::register_component`: insert, last registration for
a name wins. -/
def ComponentRegistry.register_component (reg : ComponentRegistry)
    (name global_fn_name : String) : ComponentRegistry :=
  (reg.filter (fun p => p.1 ≠ name)) ++ [(name, global_fn_name)]

/-- Evaluation environment: the rhai `EvalContext` scope together with the
external collaborators consumed by the interpreter — the expression
evaluator (`ExpressionCollection::eval_expression`), function dispatch
(`EvalContext::call_fn`), literal opening-markup serialization
(`eval_tag`), and the component registry. -/
structure Env where
  scope : List (String × Dyn)
  evalExprIn : List (String × Dyn) → ExpressionReference → Except String Dyn
  callFn : String → Dyn → Dyn → Dyn → Except String Dyn
  evalTag : TagHeader → Except String String
  registry : ComponentRegistry

/-- Evaluate an expression handle against the environment's scope. -/
def Env.evalExpr (env : Env) (e : ExpressionReference) : Except String Dyn :=
  env.evalExprIn env.scope e

/-- Props construction for a component tag (`eval_tag_stack_node.rs`,
the `props` block): iterate the attributes in order, inserting each
attribute's value into the map — an `Expression` value is evaluated
against scope, a `Text` value is used verbatim, and a missing value binds
`true`. -/
def eval_props (env : Env) : List Attribute → List (String × Dyn) →
    Except String (List (String × Dyn))
  | [], acc => .ok acc
  | a :: rest, acc => do
      let v ← match a.value with
        | some (.expression e) => env.evalExpr e
        | some (.text t) => Except.ok (.str t)
        | none => Except.ok (.bool true)
      eval_props env rest (mapInsert acc a.name v)

mutual

/-- `eval_tag_stack_node` (`rhai_components/eval_tag_stack_node.rs`):
recursively render a tag-stack node to a string. -/
def eval_tag_stack_node (env : Env) : TagStackNode → Except String String
  | .text t => .ok t
  | .bodyExpression e => do
      let v ← env.evalExpr e
      match v with
      | .array items => .ok (String.join (items.map Dyn.toStr))
      | other => .ok other.toStr
  | .tag opening_tag children is_closed => do
      let opening ← match opening_tag with
        | some h => if h.is_component then Except.ok "" else env.evalTag h
        | none => Except.ok ""
      let childStr ← eval_children env children
      let result := opening ++ childStr
      match opening_tag with
      | some h =>
          if is_closed ∧ ¬h.is_component then
            .ok (result ++ "</" ++ h.name ++ ">")
          else if h.is_component then do
            let props ← eval_props env h.attributes []
            let fn ← match env.registry.get_global_fn_name h.name with
              | .ok fn => Except.ok fn
              | .error err => Except.error ("Component not found: " ++ err)
            let context ← match alistGet env.scope "context" with
              | some c => Except.ok c
              | none => Except.error "context variable not found in scope"
            let ret ← match env.callFn fn context (.map props) (.str result) with
              | .ok v => Except.ok v
              | .error err =>
                  Except.error ("Failed to call component function: " ++ err)
            .ok ret.toStr
          else
            .ok result
      | none => .ok result

/-- Render a node's children in order, concatenating the results
(the `for child in children` loop of `eval_tag_stack_node`). -/
def eval_children (env : Env) : List TagStackNode → Except String String
  | [] => .ok ""
  | c :: rest => do
      let s ← eval_tag_stack_node env c
      let r ← eval_children env rest
      .ok (s ++ r)

end

/-- Drop leading whitespace, working on the character list so that concrete
evaluation reduces in the kernel. -/
def trimLeftStr (s : String) : String :=
  ⟨s.data.dropWhile Char.isWhitespace⟩

/-- Trim leading and trailing whitespace. -/
def trimStr (s : String) : String :=
  ⟨((s.data.dropWhile Char.isWhitespace).reverse.dropWhile Char.isWhitespace).reverse⟩

/-- Message roles (`mcp/jsonrpc/role.rs`, evidenced by the controller's
test): the recognized role-marker vocabulary. -/
inductive Role where
  | user : Role
  | assistant : Role
deriving DecidableEq

/-- `PromptMessage` (`mcp/prompt_message.rs`): a role-tagged content
chunk. -/
structure PromptMessage where
  role : Role
  content : String
deriving DecidableEq

/-- `PromptsGetResult` (`mcp/jsonrpc/response/success/prompts_get_result.rs`,
fields evidenced by `respond_to`): optional description, ordered messages,
optional metadata. -/
structure PromptsGetResult where
  description : Option String
  messages : List PromptMessage
  meta : Option Unit
deriving DecidableEq

/-- A bound request argument.  Modelled from the spec: each accepted raw
value is wrapped into a structured binding exposing an `.input` field equal
to the raw string, reachable as `context.arguments.<name>.input`. -/
structure ArgumentBinding where
  input : String
deriving DecidableEq

/-- `Argument` (`prompt_document_front_matter/argument.rs`): one declared
argument of a document's metadata.  Note: in the source, `date` is a plain
`String` field — not an `Option` and with no serde default. -/
structure Argument where
  date : String
  description : String
  required : Bool
  title : String
deriving DecidableEq

/-- `PromptDocumentFrontMatter` (not under `src/`).  Modelled from the
spec: the document metadata owns the declared-argument schema, a
description and a title, immutable after document compile. -/
structure PromptDocumentFrontMatter where
  arguments : List (String × Argument)
  description : String
  title : String

/-- Modelled from the spec: `PromptDocumentFrontMatter::map_arguments` is
not under `src/`.  For each declared argument marked required, its name
must be present in the raw mapping; absence fails with a name-specific
error.  Accepted raw values are wrapped into `.input` bindings; undeclared
extra arguments are passed through (non-strict, the spec's recommended
reading of the open question). -/
def PromptDocumentFrontMatter.map_arguments (fm : PromptDocumentFrontMatter)
    (raw : List (String × String)) :
    Except String (List (String × ArgumentBinding)) :=
  match fm.arguments.find? (fun p => p.2.required && (alistGet raw p.1).isNone) with
  | some p => .error ("Missing required argument: " ++ p.1)
  | none => .ok (raw.map (fun p => (p.1, ⟨p.2⟩)))

/-- Inline run inside a document block: plain text, a bolded token, or an
embedded tag/expression region handed to the tag-tree interpreter. -/
inductive Inline where
  | text : String → Inline
  | strong : String → Inline
  | region : TagStackNode → Inline

/-- A document block (paragraph) is an ordered run of inlines. -/
abbrev Block := List Inline

/-- Recognized role-marker tokens. -/
def roleOfMarker (s : String) : Option Role :=
  if s = "user" then some .user
  else if s = "assistant" then some .assistant
  else none

/-- Modelled from the spec: a block's leading role marker is a recognized
bolded token immediately followed by a colon at the start of the block;
the remainder of the block (after the marker, colon stripped, leading
whitespace dropped) becomes the start of the new pending chunk. -/
def detect_role_marker : Block → Option (Role × Block)
  | .strong r :: .text s :: rest =>
      match roleOfMarker r with
      | some role =>
          if s.data.head? = some ':' then
            some (role, .text (trimLeftStr ⟨s.data.drop 1⟩) :: rest)
          else none
      | none => none
  | _ => none

/-- Render one inline run; embedded regions go through the tag-tree
interpreter. -/
def render_inline (env : Env) : Inline → Except String String
  | .text s => .ok s
  | .strong s => .ok ("**" ++ s ++ "**")
  | .region n => eval_tag_stack_node env n

/-- Render a block's inlines in order, concatenating. -/
def render_inlines (env : Env) : Block → Except String String
  | [] => .ok ""
  | i :: rest => do
      let s ← render_inline env i
      let r ← render_inlines env rest
      .ok (s ++ r)

/-- `PromptDocumentComponentContext` (not under `src/`, fields evidenced
by `respond_to`): the per-request evaluation state — bound arguments,
current role, flushed messages, and the unflushed pending chunk. -/
structure PromptDocumentComponentContext where
  arguments : List (String × ArgumentBinding)
  current_role : Option Role
  prompt_messages : List PromptMessage
  unprocessed_message_chunk : String

/-- Modelled from the spec: flush the pending chunk (trimmed of incidental
boundary whitespace) as a message tagged with the current role; empty
pending chunks are not emitted; a non-empty chunk with no established role
is an error (the spec's hard-error reading of the open question). -/
def flush_pending (ctx : PromptDocumentComponentContext) :
    Except String PromptDocumentComponentContext :=
  let chunk := trimStr ctx.unprocessed_message_chunk
  if chunk = "" then
    .ok { ctx with unprocessed_message_chunk := "" }
  else
    match ctx.current_role with
    | some r =>
        .ok { ctx with
                prompt_messages := ctx.prompt_messages ++ [⟨r, chunk⟩],
                unprocessed_message_chunk := "" }
    | none => .error "no role marker established before content"

/-- Modelled from the spec: process one document block — on a leading role
marker, flush the pending chunk under the previous role, switch role, and
start the new pending chunk with the marker's remainder; otherwise append
the block's fully-rendered text to the pending chunk. -/
def eval_block (env : Env) (ctx : PromptDocumentComponentContext)
    (b : Block) : Except String PromptDocumentComponentContext :=
  match detect_role_marker b with
  | some (role, rest) => do
      let flushed ← flush_pending ctx
      let s ← render_inlines env rest
      .ok { flushed with current_role := some role, unprocessed_message_chunk := s }
  | none => do
      let s ← render_inlines env b
      .ok { ctx with unprocessed_message_chunk := ctx.unprocessed_message_chunk ++ s }

/-- Fold the document's blocks in document order. -/
def eval_blocks (env : Env) : List Block → PromptDocumentComponentContext →
    Except String PromptDocumentComponentContext
  | [], ctx => .ok ctx
  | b :: rest, ctx => do
      let ctx2 ← eval_block env ctx b
      eval_blocks env rest ctx2

/-- Modelled from the spec: `eval_prompt_document_mdast` is not under
`src/`.  Walks the document's blocks in order, segmenting rendered content
into role-tagged messages, and flushes the final pending chunk at document
end. -/
def eval_prompt_document_mdast (env : Env) (blocks : List Block)
    (ctx : PromptDocumentComponentContext) :
    Except String PromptDocumentComponentContext := do
  let ctx2 ← eval_blocks env blocks ctx
  flush_pending ctx2

/-- The `context` scope binding seen by expressions: an object exposing the
bound arguments, each with its `.input` field. -/
def contextDyn (args : List (String × ArgumentBinding)) : Dyn :=
  .map [("arguments",
      .map (args.map (fun p => (p.1, Dyn.map [("input", .str p.2.input)]))))]

/-- External collaborators injected into the evaluation: expression
evaluator, component dispatch, and opening-markup serialization. -/
structure ExternalServices where
  evalExprIn : List (String × Dyn) → ExpressionReference → Except String Dyn
  callFn : String → Dyn → Dyn → Dyn → Except String Dyn
  evalTag : TagHeader → Except String String

/-- `PromptDocumentController` (`prompt_document_controller.rs`): the
compiled per-document façade — front matter, registered name, parsed
content tree, and the evaluation services. -/
structure PromptDocumentController where
  front_matter : PromptDocumentFrontMatter
  name : String
  mdast : List Block
  services : ExternalServices
  registry : ComponentRegistry

/-- `PromptDocumentController::respond_to`: bind the raw arguments against
the schema, build a fresh per-request component context, evaluate the
document tree, and package description plus messages. -/
def PromptDocumentController.respond_to (c : PromptDocumentController)
    (raw_arguments : List (String × String)) :
    Except String PromptsGetResult := do
  let args ← c.front_matter.map_arguments raw_arguments
  let env : Env :=
    { scope := [("context", contextDyn args)]
    , evalExprIn := c.services.evalExprIn
    , callFn := c.services.callFn
    , evalTag := c.services.evalTag
    , registry := c.registry }
  let ctx0 : PromptDocumentComponentContext :=
    { arguments := args
    , current_role := none
    , prompt_messages := []
    , unprocessed_message_chunk := "" }
  let ctx ← eval_prompt_document_mdast env c.mdast ctx0
  .ok { description := some c.front_matter.description
      , messages := ctx.prompt_messages
      , meta := none }

/-- `PromptArgument` (`mcp/prompt.rs`, fields evidenced by
`get_mcp_prompt`). -/
structure PromptArgument where
  date : String
  description : String
  name : String
  required : Bool
  title : String
deriving DecidableEq

/-- `Prompt` (`mcp/prompt.rs`, fields evidenced by `get_mcp_prompt`). -/
structure Prompt where
  arguments : List PromptArgument
  description : String
  name : String
  title : String

/-- `PromptDocumentController::get_mcp_prompt`: pure projection of the
document's metadata, each declared argument carried over field by field. -/
def PromptDocumentController.get_mcp_prompt (c : PromptDocumentController) :
    Prompt :=
  { arguments := c.front_matter.arguments.map (fun p =>
      { date := p.2.date
      , description := p.2.description
      , name := p.1
      , required := p.2.required
      , title := p.2.title })
  , description := c.front_matter.description
  , name := c.name
  , title := c.front_matter.title }

/-- Split a character list on a separator character. -/
def splitCharsOn (c : Char) : List Char → List (List Char)
  | [] => [[]]
  | x :: rest =>
      let groups := splitCharsOn c rest
      if x = c then [] :: groups
      else
        match groups with
        | [] => [[x]]
        | g :: gs => (x :: g) :: gs

/-- Navigate a dotted path through nested dynamic maps. -/
def dynPath : Dyn → List String → Except String Dyn
  | v, [] => .ok v
  | .map m, k :: rest =>
      match alistGet m k with
      | some v => dynPath v rest
      | none => .error ("path segment not found: " ++ k)
  | _, k :: _ => .error ("cannot access field " ++ k)

/-- A concrete instance of the external expression evaluator, used for the
concrete scenarios: interprets a handle as a dotted variable path
(`context.arguments.objective.input`) looked up through the scope. -/
def path_expression_evaluator (scope : List (String × Dyn))
    (e : ExpressionReference) : Except String Dyn :=
  match (splitCharsOn '.' e.data).map (fun g => (⟨g⟩ : String)) with
  | [] => .error "empty expression"
  | root :: rest =>
      match alistGet scope root with
      | some v => dynPath v rest
      | none => .error ("variable not found: " ++ root)

/-- Concrete external services for the reference scenario: the dotted-path
expression evaluator, no component dispatch, literal markup as `<name>`. -/
def scenario_services : ExternalServices :=
  { evalExprIn := path_expression_evaluator
  , callFn := fun _ _ _ _ => .error "component dispatch unavailable"
  , evalTag := fun h => .ok ("<" ++ h.name ++ ">") }

/-- Front matter of the reference scenario document
(`test_convert_to_prompt_messages`): description, title, and one required
argument `objective`.  The scenario's front matter declares no per-argument
`date`, so the `date` field value is left as a parameter. -/
def scenario_front_matter (date : String) : PromptDocumentFrontMatter :=
  { arguments := [("objective",
      { date := date
      , description := "Describe what you are trying to do"
      , required := true
      , title := "Your objective" })]
  , description := "test prompt description"
  , title := "Help me with finishing the task" }

/-- Parsed body of the reference scenario document: three role-marked
blocks, the first embedding the expression
`context.arguments.objective.input`. -/
def scenario_mdast : List Block :=
  [ [ .strong "user"
    , .text ": This is what I am trying to do: "
    , .region (.bodyExpression "context.arguments.objective.input") ]
  , [ .strong "assistant", .text ": wow" ]
  , [ .strong "user", .text ": yeah" ] ]

/-- The compiled reference scenario controller. -/
def scenario_controller (date : String) : PromptDocumentController :=
  { front_matter := scenario_front_matter date
  , name := "help-me-finish-task"
  , mdast := scenario_mdast
  , services := scenario_services
  , registry := [] }

/-- Candidate document descriptor seen by the collection builder: the file
kind's prompt flag (`file.kind.is_prompt()`) and the document's registered
name (derived from its path by an external filesystem capability). -/
structure CandidateFile where
  kind_prompt : Bool
  name : String

/-- The parallel per-document loop of `build_prompt_controller_collection`
(`build_prompt_controller_collection/mod.rs`): filter to prompt files,
compile each independently, record successes in the controller map and
failures in the error collection.  The parallel iteration is order-free;
this fold is one linearization of it, and the theorems below only use
order-insensitive consequences. -/
def process_prompt_files
    (compile : CandidateFile → Except String PromptDocumentController) :
    List CandidateFile →
      List (String × PromptDocumentController) × List (String × String)
  | [] => ([], [])
  | f :: rest =>
      let r := process_prompt_files compile rest
      if f.kind_prompt then
        match compile f with
        | .ok c => ((f.name, c) :: r.1, r.2)
        | .error e => (r.1, (f.name, e) :: r.2)
      else r

/-- Modelled from the spec: `DocumentErrorCollection`'s textual rendering
(its `Display`, not under `src/`) enumerates every collected
document-name/error pair. -/
def render_error_collection : List (String × String) → String
  | [] => ""
  | p :: rest => p.1 ++ ": " ++ p.2 ++ "\n" ++ render_error_collection rest

/-- `build_prompt_controller_collection`: process every candidate, then
fail with the rendered error collection when it is non-empty, otherwise
return the completed name-keyed collection. -/
def build_prompt_controller_collection
    (compile : CandidateFile → Except String PromptDocumentController)
    (files : List CandidateFile) :
    Except String (List (String × PromptDocumentController)) :=
  let r := process_prompt_files compile files
  if r.2.isEmpty then .ok r.1 else .error (render_error_collection r.2)

/-- A TOML-table value, as far as the `Argument` schema needs. -/
inductive TomlValue where
  | str : String → TomlValue
  | bool : Bool → TomlValue

/-- The field names of `Argument`. -/
def argument_field_names : List String := ["date", "description", "required", "title"]

/-- Require a string-typed field of a table. -/
def requireStr (table : List (String × TomlValue)) (k : String) :
    Except String String :=
  match alistGet table k with
  | some (.str s) => .ok s
  | some _ => .error ("invalid type for field " ++ k)
  | none => .error ("missing field " ++ k)

/-- Require a bool-typed field of a table. -/
def requireBool (table : List (String × TomlValue)) (k : String) :
    Except String Bool :=
  match alistGet table k with
  | some (.bool b) => .ok b
  | some _ => .error ("invalid type for field " ++ k)
  | none => .error ("missing field " ++ k)

/-- Deserialization of `Argument`
(`prompt_document_front_matter/argument.rs`), following the serde derive
semantics of the struct as written: `deny_unknown_fields` rejects unknown
keys, and all four fields — including `date : String`, which has no
`Option` type and no default — are required, checked in declaration
order. -/
def deserialize_argument (table : List (String × TomlValue)) :
    Except String Argument :=
  match table.find? (fun p => ¬ argument_field_names.contains p.1) with
  | some p => .error ("unknown field " ++ p.1)
  | none => do
      let date ← requireStr table "date"
      let description ← requireStr table "description"
      let required ← requireBool table "required"
      let title ← requireStr table "title"
      .ok { date := date, description := description
          , required := required, title := title }

/-- Monadic bind on `Except` applied to a success. -/
theorem exbind_ok {α β : Type} (a : α) (f : α → Except String β) :
    (Except.ok a >>= f) = f a := rfl

/-- Monadic bind on `Except` applied to a failure. -/
theorem exbind_err {α β : Type} (e : String) (f : α → Except String β) :
    ((Except.error e : Except String α) >>= f) = .error e := rfl

/-- Inversion: a successful bind factors through a successful first step. -/
theorem exbind_eq_ok {α β : Type} {x : Except String α}
    {f : α → Except String β} {b : β} (h : (x >>= f) = .ok b) :
    ∃ a, x = .ok a ∧ f a = .ok b := by
  cases x with
  | ok a => exact ⟨a, rfl, h⟩
  | error e => exact absurd h (by simp [exbind_err])

/-- A minimal compiled controller (empty schema, empty document), used to
instantiate hypotheses at concrete inputs. -/
def trivial_controller : PromptDocumentController :=
  { front_matter := { arguments := [], description := "", title := "" }
  , name := ""
  , mdast := []
  , services := scenario_services
  , registry := [] }

/-- C1: for a document whose front matter declares description
"test prompt description", title "Help me with finishing the task", and one
required argument `objective`, and whose body is the three role-marked
blocks of the reference scenario, a respond call binding `objective` to
"ride a horse" returns description "test prompt description" and exactly
three messages in order: User "This is what I am trying to do: ride a
horse", Assistant "wow", User "yeah". -/
theorem respond_scenario_reference (date : String) :
    (scenario_controller date).respond_to [("objective", "ride a horse")]
      = .ok { description := some "test prompt description"
            , messages :=
                [ { role := .user
                  , content := "This is what I am trying to do: ride a horse" }
                , { role := .assistant, content := "wow" }
                , { role := .user, content := "yeah" } ]
            , meta := none } := rfl

/-- C8 (code evaluated at the failing input): the `Argument` struct as
written requires the `date` field — a declaration providing `description`,
`required` and `title` but omitting `date` (exactly the repo's own
`[arguments.objective]` test table) is rejected with a missing-field
error, while a table with `date` present succeeds and preserves it
unchanged. -/
theorem argument_date_field_required :
    deserialize_argument
        [ ("description", .str "Describe what you are trying to do")
        , ("required", .bool true)
        , ("title", .str "Your objective") ]
      = .error "missing field date"
    ∧ deserialize_argument
        [ ("date", .str "31/10/2024")
        , ("description", .str "d")
        , ("required", .bool true)
        , ("title", .str "t") ]
      = .ok { date := "31/10/2024", description := "d"
            , required := true, title := "t" } :=
  ⟨rfl, rfl⟩

/-- C9: respond is deterministic — two respond calls on the same controller
with identical raw arguments return identical results, in particular
identical message sequences; no mutable state carries over between
requests (the embedded `respond_to` is a pure function of the controller
and the request). -/
theorem respond_deterministic (c : PromptDocumentController)
    (raw : List (String × String)) (r₁ r₂ : PromptsGetResult)
    (h₁ : c.respond_to raw = .ok r₁) (h₂ : c.respond_to raw = .ok r₂) :
    r₁ = r₂ ∧ r₁.messages = r₂.messages := by
  rw [h₁] at h₂
  cases h₂
  exact ⟨rfl, rfl⟩

/-- Witness for C9 at the minimal controller. -/
theorem respond_deterministic_witness :
    ({ description := some "", messages := [], meta := none } : PromptsGetResult)
        = { description := some "", messages := [], meta := none }
      ∧ ([] : List PromptMessage) = [] :=
  respond_deterministic trivial_controller []
    { description := some "", messages := [], meta := none }
    { description := some "", messages := [], meta := none } rfl rfl

/-- C10: every successful respond call returns a present description equal
to the document's front-matter description, regardless of the request's
arguments. -/
theorem respond_description_projection (c : PromptDocumentController)
    (raw : List (String × String)) (r : PromptsGetResult)
    (h : c.respond_to raw = .ok r) :
    r.description = some c.front_matter.description := by
  unfold PromptDocumentController.respond_to at h
  obtain ⟨args, hm, h⟩ := exbind_eq_ok h
  obtain ⟨ctx, he, h⟩ := exbind_eq_ok h
  cases h
  rfl

/-- Witness for C10 at the minimal controller. -/
theorem respond_description_projection_witness :
    (some "" : Option String) = some trivial_controller.front_matter.description :=
  respond_description_projection trivial_controller []
    { description := some "", messages := [], meta := none } rfl

/-- C2: a body-expression node whose expression evaluates to a sequence
renders as the concatenation of each element's string form, in sequence
order, with no inserted separator; a body expression evaluating to a
non-sequence value renders as that value's scalar string form. -/
theorem body_expression_flattening (env : Env) (e : ExpressionReference) :
    (∀ xs, env.evalExpr e = .ok (.array xs) →
        eval_tag_stack_node env (.bodyExpression e)
          = .ok (String.join (xs.map Dyn.toStr)))
    ∧ (∀ v, env.evalExpr e = .ok v → (∀ xs, v ≠ Dyn.array xs) →
        eval_tag_stack_node env (.bodyExpression e) = .ok v.toStr) := by
  constructor
  · intro xs h
    simp [eval_tag_stack_node, h, exbind_ok]
  · intro v h hne
    cases v with
    | array xs => exact absurd rfl (hne xs)
    | str s => simp [eval_tag_stack_node, h, exbind_ok]
    | bool b => simp [eval_tag_stack_node, h, exbind_ok]
    | int n => simp [eval_tag_stack_node, h, exbind_ok]
    | map ps => simp [eval_tag_stack_node, h, exbind_ok]

/-- Environment whose expression evaluator returns a sequence for the
handle "seq" and a scalar for every other handle. -/
def flatten_env : Env :=
  { scope := []
  , evalExprIn := fun _ e =>
      if e = "seq" then .ok (.array [.str "a", .int 1, .bool true])
      else .ok (.str "scalar")
  , callFn := fun _ _ _ _ => .error "no dispatch"
  , evalTag := fun _ => .ok ""
  , registry := [] }

/-- Witness for C2: the sequence flattens with no separator, the scalar
renders bare. -/
theorem body_expression_flattening_witness :
    eval_tag_stack_node flatten_env (.bodyExpression "seq") = .ok "a1true"
    ∧ eval_tag_stack_node flatten_env (.bodyExpression "x") = .ok "scalar" :=
  ⟨(body_expression_flattening flatten_env "seq").1
      [.str "a", .int 1, .bool true] rfl,
   (body_expression_flattening flatten_env "x").2
      (.str "scalar") rfl (fun _ h => Dyn.noConfusion h)⟩

/-- C3: a literal (non-component) tag with an opening header renders as
the opening markup, then the children rendered in order, then — exactly
when the tag is marked closed — the closing markup `</name>`; an unclosed
literal tag emits no closing markup. -/
theorem literal_tag_wrapping (env : Env) (hdr : TagHeader)
    (children : List TagStackNode) (openStr body : String)
    (hcomp : hdr.is_component = false)
    (hopen : env.evalTag hdr = .ok openStr)
    (hch : eval_children env children = .ok body) :
    eval_tag_stack_node env (.tag (some hdr) children true)
        = .ok (openStr ++ body ++ "</" ++ hdr.name ++ ">")
    ∧ eval_tag_stack_node env (.tag (some hdr) children false)
        = .ok (openStr ++ body) := by
  constructor <;> simp [eval_tag_stack_node, hcomp, hopen, hch, exbind_ok]

/-- Environment serializing literal opening markup as `<name>`. -/
def literal_env : Env :=
  { scope := []
  , evalExprIn := fun _ _ => .ok (.str "")
  , callFn := fun _ _ _ _ => .error "no dispatch"
  , evalTag := fun h => .ok ("<" ++ h.name ++ ">")
  , registry := [] }

/-- Witness for C3: a closed `note` tag wraps its child; an unclosed one
emits only the opening markup and the child. -/
theorem literal_tag_wrapping_witness :
    eval_tag_stack_node literal_env
        (.tag (some { name := "note", is_component := false, attributes := [] })
          [.text "hi"] true)
      = .ok "<note>hi</note>"
    ∧ eval_tag_stack_node literal_env
        (.tag (some { name := "note", is_component := false, attributes := [] })
          [.text "hi"] false)
      = .ok "<note>hi" :=
  literal_tag_wrapping literal_env
    { name := "note", is_component := false, attributes := [] }
    [.text "hi"] "<note>" "hi" rfl rfl rfl

/-- The per-attribute binding as the claim words it: an `Expression` value
evaluates against scope, a `Text` value is used verbatim, an attribute with
no value at all binds the boolean `true`. -/
def attribute_binding_value (env : Env) (a : Attribute) : Except String Dyn :=
  match a.value with
  | some (.expression e) => env.evalExpr e
  | some (.text t) => .ok (.str t)
  | none => .ok (.bool true)

/-- The ordered name/value bindings of a tag's attributes, iterated in
attribute order. -/
def attribute_bindings (env : Env) : List Attribute → Except String (List (String × Dyn))
  | [] => .ok []
  | a :: rest => do
      let v ← attribute_binding_value env a
      let restPairs ← attribute_bindings env rest
      .ok ((a.name, v) :: restPairs)

/-- The props map as the claim describes it: the ordered attribute bindings
inserted into a map in sequence. -/
def eval_props_spec (env : Env) (attrs : List Attribute) :
    Except String (List (String × Dyn)) :=
  (attribute_bindings env attrs).map
    (fun pairs => pairs.foldl (fun m p => mapInsert m p.1 p.2) [])

/-- `eval_props` starting from any accumulator folds the ordered attribute
bindings into it. -/
theorem eval_props_eq_bindings (env : Env) (attrs : List Attribute)
    (acc : List (String × Dyn)) :
    eval_props env attrs acc
      = (attribute_bindings env attrs).map
          (fun pairs => pairs.foldl (fun m p => mapInsert m p.1 p.2) acc) := by
  induction attrs generalizing acc with
  | nil => simp [eval_props, attribute_bindings, Except.map]
  | cons a rest ih =>
      obtain ⟨n, v⟩ := a
      match v with
      | none =>
          cases hrest : attribute_bindings env rest with
          | error e =>
              simp [eval_props, attribute_bindings, attribute_binding_value,
                hrest, exbind_ok, exbind_err, Except.map, ih]
          | ok ps =>
              simp [eval_props, attribute_bindings, attribute_binding_value,
                hrest, exbind_ok, Except.map, ih]
      | some (.text t) =>
          cases hrest : attribute_bindings env rest with
          | error e =>
              simp [eval_props, attribute_bindings, attribute_binding_value,
                hrest, exbind_ok, exbind_err, Except.map, ih]
          | ok ps =>
              simp [eval_props, attribute_bindings, attribute_binding_value,
                hrest, exbind_ok, Except.map, ih]
      | some (.expression e) =>
          cases hv : env.evalExpr e with
          | error err =>
              simp [eval_props, attribute_bindings, attribute_binding_value,
                hv, exbind_err, Except.map]
          | ok val =>
              cases hrest : attribute_bindings env rest with
              | error er =>
                  simp [eval_props, attribute_bindings, attribute_binding_value,
                    hv, hrest, exbind_ok, exbind_err, Except.map, ih]
              | ok ps =>
                  simp [eval_props, attribute_bindings, attribute_binding_value,
                    hv, hrest, exbind_ok, Except.map, ih]

/-- C4: the props map passed to a dispatched component is built by
iterating the tag's attributes in order — an `Expression` attribute value
evaluates against scope, a `Text` value is used verbatim, a value-less
attribute binds `true` — and on the success path the dispatch receives
exactly that map. -/
theorem component_props_construction (env : Env) (attrs : List Attribute) :
    eval_props env attrs [] = eval_props_spec env attrs
    ∧ (∀ cname children is_closed childStr props fn ctxv ret,
        eval_children env children = .ok childStr →
        eval_props env attrs [] = .ok props →
        env.registry.get_global_fn_name cname = .ok fn →
        alistGet env.scope "context" = some ctxv →
        env.callFn fn ctxv (.map props) (.str childStr) = .ok ret →
        eval_tag_stack_node env
            (.tag (some { name := cname, is_component := true, attributes := attrs })
              children is_closed)
          = .ok ret.toStr) := by
  constructor
  · exact eval_props_eq_bindings env attrs []
  · intro cname children is_closed childStr props fn ctxv ret hch hp hfn hctx hcall
    simp [eval_tag_stack_node, hch, hp, hfn, hctx, hcall, exbind_ok]

/-- Environment with one registered component and a recording dispatch
function: the call succeeds only on the exact props map the claim
prescribes. -/
def props_env : Env :=
  { scope := [("context", .str "ctx")]
  , evalExprIn := fun _ e => if e = "one" then .ok (.int 1) else .error "unknown"
  , callFn := fun fn c props children =>
      match props with
      | .map m => .ok (.array [.str fn, c, .map m, children])
      | _ => .error "bad props"
  , evalTag := fun _ => .ok ""
  , registry := [("widget", "fn_widget")] }

/-- Witness for C4: an expression attribute, a text attribute, and a
boolean-shorthand attribute produce the prescribed props map, and the
dispatched component receives it. -/
theorem component_props_construction_witness :
    eval_props props_env
        [ { name := "a", value := some (.expression "one") }
        , { name := "b", value := some (.text "lit") }
        , { name := "c", value := none } ] []
      = eval_props_spec props_env
        [ { name := "a", value := some (.expression "one") }
        , { name := "b", value := some (.text "lit") }
        , { name := "c", value := none } ]
    ∧ eval_tag_stack_node props_env
        (.tag (some { name := "widget", is_component := true
                    , attributes :=
                        [ { name := "a", value := some (.expression "one") }
                        , { name := "b", value := some (.text "lit") }
                        , { name := "c", value := none } ] })
          [.text "kid"] false)
      = .ok "[fn_widget, ctx, #\x7ba: 1, b: lit, c: true\x7d, kid]" :=
  ⟨(component_props_construction props_env
      [ { name := "a", value := some (.expression "one") }
      , { name := "b", value := some (.text "lit") }
      , { name := "c", value := none } ]).1,
   (component_props_construction props_env
      [ { name := "a", value := some (.expression "one") }
      , { name := "b", value := some (.text "lit") }
      , { name := "c", value := none } ]).2
      "widget" [.text "kid"] false "kid"
      [("a", .int 1), ("b", .str "lit"), ("c", .bool true)]
      "fn_widget" (.str "ctx")
      (.array [.str "fn_widget", .str "ctx"
              , .map [("a", .int 1), ("b", .str "lit"), ("c", .bool true)]
              , .str "kid"])
      rfl rfl rfl rfl rfl⟩

/-- A component tag node: opening header with the component flag set. -/
def component_tag (cname : String) (attrs : List Attribute)
    (children : List TagStackNode) (is_closed : Bool) : TagStackNode :=
  .tag (some { name := cname, is_component := true, attributes := attrs })
    children is_closed

/-- C5: rendering a component tag fails as a whole — returning an error
and no partial output — whenever the component name is unregistered (the
error naming that component), or the `context` binding is absent from the
evaluation scope, or the component invocation itself fails. -/
theorem component_dispatch_failures (env : Env) (cname : String)
    (attrs : List Attribute) (children : List TagStackNode) (is_closed : Bool)
    (childStr : String) (props : List (String × Dyn))
    (hch : eval_children env children = .ok childStr)
    (hp : eval_props env attrs [] = .ok props) :
    (alistGet env.registry cname = none →
        ∃ msg, eval_tag_stack_node env (component_tag cname attrs children is_closed)
            = .error msg
          ∧ cname.data <:+: msg.data)
    ∧ (∀ fn, alistGet env.registry cname = some fn →
        alistGet env.scope "context" = none →
        eval_tag_stack_node env (component_tag cname attrs children is_closed)
          = .error "context variable not found in scope")
    ∧ (∀ fn ctxv msg, alistGet env.registry cname = some fn →
        alistGet env.scope "context" = some ctxv →
        env.callFn fn ctxv (.map props) (.str childStr) = .error msg →
        eval_tag_stack_node env (component_tag cname attrs children is_closed)
          = .error ("Failed to call component function: " ++ msg)) := by
  refine ⟨?_, ?_, ?_⟩
  · intro hreg
    refine ⟨"Component not found: " ++ ("Component " ++ cname ++ " not found"), ?_, ?_⟩
    · simp [component_tag, eval_tag_stack_node,
        ComponentRegistry.get_global_fn_name, hch, hp, hreg,
        exbind_ok, exbind_err]
    · exact ⟨"Component not found: ".data ++ "Component ".data,
        " not found".data, by simp [String.data_append]⟩
  · intro fn hreg hctx
    simp [component_tag, eval_tag_stack_node,
      ComponentRegistry.get_global_fn_name, hch, hp, hreg, hctx,
      exbind_ok, exbind_err]
  · intro fn ctxv msg hreg hctx hcall
    simp [component_tag, eval_tag_stack_node,
      ComponentRegistry.get_global_fn_name, hch, hp, hreg, hctx, hcall,
      exbind_ok, exbind_err]

/-- Environment with nothing registered and nothing in scope. -/
def undefined_component_env : Env :=
  { scope := []
  , evalExprIn := fun _ _ => .error "no expressions"
  , callFn := fun _ _ _ _ => .error "no dispatch"
  , evalTag := fun _ => .ok ""
  , registry := [] }

/-- Witness for C5: an unregistered component fails the render with an
error naming the component. -/
theorem component_dispatch_failures_witness :
    ∃ msg, eval_tag_stack_node undefined_component_env
        (component_tag "missing" [] [] false) = .error msg
      ∧ ("missing" : String).data <:+: msg.data :=
  (component_dispatch_failures undefined_component_env "missing" [] [] false
    "" [] rfl rfl).1 rfl

/-- Every collected document-name/error pair appears verbatim in the
rendered error collection. -/
theorem render_error_collection_has_pair {n e : String}
    {errs : List (String × String)} (h : (n, e) ∈ errs) :
    (n ++ ": " ++ e).data <:+: (render_error_collection errs).data := by
  induction errs with
  | nil => cases h
  | cons p rest ih =>
      rcases List.mem_cons.mp h with heq | hmem
      · rw [← heq]
        refine ⟨[], "\n".data ++ (render_error_collection rest).data, ?_⟩
        simp [render_error_collection, String.data_append, List.append_assoc]
      · obtain ⟨s, t, hst⟩ := ih hmem
        refine ⟨(p.1 ++ ": " ++ p.2 ++ "\n").data ++ s, t, ?_⟩
        have hdata : (render_error_collection (p :: rest)).data
            = (p.1 ++ ": " ++ p.2 ++ "\n").data
                ++ (render_error_collection rest).data := by
          rw [show render_error_collection (p :: rest)
                = p.1 ++ ": " ++ p.2 ++ "\n" ++ render_error_collection rest from rfl,
              String.data_append]
        rw [hdata, ← hst]
        simp [List.append_assoc]

/-- The builder's per-document loop records exactly the successful
compiles in the controller map and exactly the failed ones in the error
collection, each keyed by document name. -/
theorem process_prompt_files_spec
    (compile : CandidateFile → Except String PromptDocumentController)
    (files : List CandidateFile) :
    (process_prompt_files compile files).1
        = (files.filter (fun f => f.kind_prompt)).filterMap
            (fun f => match compile f with
              | .ok c => some (f.name, c)
              | .error _ => none)
    ∧ (process_prompt_files compile files).2
        = (files.filter (fun f => f.kind_prompt)).filterMap
            (fun f => match compile f with
              | .ok _ => none
              | .error e => some (f.name, e)) := by
  induction files with
  | nil => simp [process_prompt_files]
  | cons f rest ih =>
      by_cases hk : f.kind_prompt
      · cases hc : compile f with
        | ok c => simp [process_prompt_files, hk, hc, ih.1, ih.2]
        | error e => simp [process_prompt_files, hk, hc, ih.1, ih.2]
      · simp [process_prompt_files, Bool.of_not_eq_true hk, ih.1, ih.2]

/-- C6: the collection build returns the completed name-keyed collection
exactly when zero prompt documents fail to compile; when any fails, the
build returns a single aggregate failure whose textual form contains every
failed document's name paired with its error; and a failing document does
not prevent any other document from being compiled and recorded. -/
theorem collection_build_isolation
    (compile : CandidateFile → Except String PromptDocumentController)
    (files : List CandidateFile) :
    ((∃ m, build_prompt_controller_collection compile files = .ok m) ↔
        ∀ f ∈ files, f.kind_prompt = true → ∃ c, compile f = .ok c)
    ∧ (∀ f ∈ files, f.kind_prompt = true → ∀ c, compile f = .ok c →
        (f.name, c) ∈ (process_prompt_files compile files).1)
    ∧ (∀ f ∈ files, f.kind_prompt = true → ∀ e, compile f = .error e →
        ∃ msg, build_prompt_controller_collection compile files = .error msg
          ∧ (f.name ++ ": " ++ e).data <:+: msg.data) := by
  obtain ⟨hfst, hsnd⟩ := process_prompt_files_spec compile files
  have build_eq : build_prompt_controller_collection compile files
      = if (process_prompt_files compile files).2.isEmpty then
          .ok (process_prompt_files compile files).1
        else
          .error (render_error_collection (process_prompt_files compile files).2) :=
    rfl
  refine ⟨?_, ?_, ?_⟩
  · constructor
    · rintro ⟨m, hm⟩ f hf hk
      rw [build_eq] at hm
      by_cases he : (process_prompt_files compile files).2.isEmpty = true
      · rw [hsnd, List.isEmpty_iff, List.filterMap_eq_nil_iff] at he
        have hnone := he f (List.mem_filter.mpr ⟨hf, hk⟩)
        cases hc : compile f with
        | ok c => exact ⟨c, rfl⟩
        | error e => rw [hc] at hnone; simp at hnone
      · rw [if_neg he] at hm
        simp at hm
    · intro hall
      have hemp : (process_prompt_files compile files).2.isEmpty = true := by
        rw [hsnd, List.isEmpty_iff, List.filterMap_eq_nil_iff]
        intro f hf
        obtain ⟨c, hc⟩ := hall f (List.mem_filter.mp hf).1
          (by simpa using (List.mem_filter.mp hf).2)
        rw [hc]
      exact ⟨(process_prompt_files compile files).1,
        by rw [build_eq, if_pos hemp]⟩
  · intro f hf hk c hc
    rw [hfst]
    exact List.mem_filterMap.mpr ⟨f, List.mem_filter.mpr ⟨hf, hk⟩, by rw [hc]⟩
  · intro f hf hk e he
    have hmem : (f.name, e) ∈ (process_prompt_files compile files).2 := by
      rw [hsnd]
      exact List.mem_filterMap.mpr ⟨f, List.mem_filter.mpr ⟨hf, hk⟩, by rw [he]⟩
    have hne : (process_prompt_files compile files).2.isEmpty = false := by
      rcases h2 : (process_prompt_files compile files).2 with _ | ⟨p, rest⟩
      · rw [h2] at hmem; cases hmem
      · rfl
    refine ⟨render_error_collection (process_prompt_files compile files).2, ?_, ?_⟩
    · simp [build_eq, hne]
    · exact render_error_collection_has_pair hmem

/-- A prompt candidate that compiles. -/
def good_file : CandidateFile := { kind_prompt := true, name := "good" }

/-- A prompt candidate whose compile fails. -/
def bad_file : CandidateFile := { kind_prompt := true, name := "bad" }

/-- A compile function failing exactly on `bad_file`. -/
def test_compile : CandidateFile → Except String PromptDocumentController :=
  fun f => if f.name = "bad" then .error "parse failure" else .ok trivial_controller

/-- Witness for C6: with one failing document among two, the good one is
still compiled and recorded, and the aggregate failure names the bad one
with its error. -/
theorem collection_build_isolation_witness :
    ("good", trivial_controller)
        ∈ (process_prompt_files test_compile [good_file, bad_file]).1
    ∧ ∃ msg,
        build_prompt_controller_collection test_compile [good_file, bad_file]
          = .error msg
        ∧ ("bad" ++ ": " ++ "parse failure").data <:+: msg.data :=
  ⟨(collection_build_isolation test_compile [good_file, bad_file]).2.1
      good_file (by simp) rfl trivial_controller rfl,
   (collection_build_isolation test_compile [good_file, bad_file]).2.2
      bad_file (by simp) rfl "parse failure" rfl⟩

/-- C7: a respond call omitting a declared required argument fails with an
error naming a required argument that is missing; when every required
argument is present, the argument-mapping stage never fails — omitting
only optional arguments is never a reason for failure. -/
theorem required_argument_validation (c : PromptDocumentController)
    (raw : List (String × String)) :
    ((∃ n a, (n, a) ∈ c.front_matter.arguments ∧ a.required = true
        ∧ alistGet raw n = none) →
      ∃ m, (∃ a2, (m, a2) ∈ c.front_matter.arguments ∧ a2.required = true
              ∧ alistGet raw m = none)
        ∧ c.respond_to raw = .error ("Missing required argument: " ++ m))
    ∧ ((∀ n a, (n, a) ∈ c.front_matter.arguments → a.required = true →
          ∃ v, alistGet raw n = some v) →
        ∃ bs, c.front_matter.map_arguments raw = .ok bs) := by
  constructor
  · rintro ⟨n, a, hmem, hreq, hmiss⟩
    have hsome : (c.front_matter.arguments.find?
        (fun p => p.2.required && (alistGet raw p.1).isNone)).isSome := by
      rw [List.find?_isSome]
      exact ⟨(n, a), hmem, by simp [hreq, hmiss]⟩
    obtain ⟨p, hp⟩ := Option.isSome_iff_exists.mp hsome
    have hprop := List.find?_some hp
    have hpmem := List.mem_of_find?_eq_some hp
    simp only [Bool.and_eq_true, Option.isNone_iff_eq_none] at hprop
    have hmap : c.front_matter.map_arguments raw
        = .error ("Missing required argument: " ++ p.1) := by
      unfold PromptDocumentFrontMatter.map_arguments
      rw [hp]
    refine ⟨p.1, ⟨p.2, by simpa using hpmem, hprop.1, hprop.2⟩, ?_⟩
    unfold PromptDocumentController.respond_to
    rw [hmap, exbind_err]
  · intro hall
    have hnone : c.front_matter.arguments.find?
        (fun p => p.2.required && (alistGet raw p.1).isNone) = none := by
      rw [List.find?_eq_none]
      intro p hp
      simp only [Bool.and_eq_true, Option.isNone_iff_eq_none, not_and]
      intro hreq
      obtain ⟨v, hv⟩ := hall p.1 p.2 (by simpa using hp) hreq
      simp [hv]
    refine ⟨raw.map (fun p => (p.1, ⟨p.2⟩)), ?_⟩
    unfold PromptDocumentFrontMatter.map_arguments
    rw [hnone]

/-- A controller with one required argument `objective`. -/
def required_controller : PromptDocumentController :=
  { front_matter :=
      { arguments := [("objective",
          { date := "", description := "", required := true, title := "" })]
      , description := "d"
      , title := "t" }
  , name := ""
  , mdast := []
  , services := scenario_services
  , registry := [] }

/-- Witness for C7: omitting `objective` fails naming it; supplying it
makes the argument mapping succeed. -/
theorem required_argument_validation_witness :
    (∃ m, (∃ a2, (m, a2) ∈ required_controller.front_matter.arguments
              ∧ a2.required = true
              ∧ alistGet ([] : List (String × String)) m = none)
        ∧ required_controller.respond_to []
            = .error ("Missing required argument: " ++ m))
    ∧ (∃ bs, required_controller.front_matter.map_arguments
          [("objective", "go")] = .ok bs) := by
  constructor
  · exact (required_argument_validation required_controller []).1
      ⟨"objective",
        { date := "", description := "", required := true, title := "" },
        List.mem_cons_self _ _, rfl, rfl⟩
  · refine (required_argument_validation required_controller
      [("objective", "go")]).2 ?_
    intro n a hmem hreq
    have hn : n = "objective" := by
      rcases List.mem_cons.mp hmem with h | h
      · exact congrArg Prod.fst h
      · cases h
    subst hn
    exact ⟨"go", rfl⟩
